import Mathlib

/-! The process descriptor of `ecosystem.config.js`

The repository is one JavaScript module whose `module.exports` is an object
literal: a collection `apps` with one process record.  The literal is embedded
as a value of `JsValue`, an untyped model of the JavaScript values that occur
in it, and the properties of the record are proved about that value.

The supervisor that reads the file is not part of the repository.  The loader,
the serializer and the size reader below are therefore models written from the
specification; each says so in its doc comment.
-/

set_option autoImplicit false

/-! ## JavaScript values -/

/-- The JavaScript values that an object literal of the configuration can hold. -/
inductive JsValue where
  | str (s : String)
  | num (n : Int)
  | bool (b : Bool)
  | arr (items : List JsValue)
  | obj (fields : List (String × JsValue))

namespace JsValue

/-- Property access `v[key]`: the value of the first field called `key`. -/
def field (key : String) : JsValue → Option JsValue
  | obj fields => fields.lookup key
  | _ => none

/-- The own keys of an object, in source order. -/
def keys : JsValue → List String
  | obj fields => fields.map Prod.fst
  | _ => []

/-- The string held by a value, when the value is a string. -/
def asString : JsValue → Option String
  | str s => some s
  | _ => none

/-- The elements of an array of strings; `none` for any other value. -/
def asStringList : JsValue → Option (List String)
  | arr items => items.mapM asString
  | _ => none

end JsValue

/-! ## The source: `src/ecosystem.config.js` -/

/-- The object assigned to `module.exports`, field by field as in the source. -/
def moduleExports : JsValue :=
  .obj [
    ("apps", .arr [.obj [
      ("name", .str "binance_alpha_be"),
      ("script", .str "/home/ubuntu/binance_alpha_be/venv/bin/python"),
      ("args", .str "-m uvicorn main:app --host 0.0.0.0 --port 8001"),
      ("cwd", .str "/home/ubuntu/binance_alpha_be"),
      ("env", .obj [
        ("NODE_ENV", .str "production")
      ]),
      ("watch", .bool false),
      ("instances", .num 1),
      ("exec_mode", .str "fork"),
      ("autorestart", .bool true),
      ("max_memory_restart", .str "500M")
    ]])
  ]

/-- The records of `module.exports.apps`. -/
def exportedApps : List JsValue :=
  match moduleExports.field "apps" with
  | some (.arr items) => items
  | _ => []

/-- The record `module.exports.apps[0]`. -/
def firstApp : JsValue :=
  exportedApps.headD (.obj [])

/-! ## Strings -/

/-- Worker of `jsSplit`: `acc` holds the current piece, reversed. -/
def splitAux (sep : Char) : List Char → List Char → List (List Char)
  | [], acc => [acc.reverse]
  | c :: cs, acc =>
    if c = sep then acc.reverse :: splitAux sep cs [] else splitAux sep cs (c :: acc)

/-- JavaScript `s.split(sep)` for a one-character separator: every occurrence
of `sep` ends a piece, so two adjacent separators give an empty piece. -/
def jsSplit (s : String) (sep : Char) : List String :=
  (splitAux sep s.data []).map String.mk

/-- The value of a decimal digit. -/
def digitValue (c : Char) : Option Nat :=
  if c.isDigit then some (c.toNat - '0'.toNat) else none

/-- The number written by a non-empty string of decimal digits. -/
def decimalValue (s : String) : Option Nat :=
  match s.data with
  | [] => none
  | cs => cs.foldlM (fun acc c => (digitValue c).map (fun d => acc * 10 + d)) 0

/-- A dotted quad: four pieces separated by `.`, each a decimal number in `0..255`. -/
def isDottedQuad (s : String) : Bool :=
  (jsSplit s '.').length == 4 &&
    (jsSplit s '.').all (fun piece =>
      match decimalValue piece with
      | some n => decide (n ≤ 255)
      | none => false)

/-- A TCP port: a decimal number in `1..65535`. -/
def isPort (s : String) : Bool :=
  match decimalValue s with
  | some n => decide (1 ≤ n) && decide (n ≤ 65535)
  | none => false

/-- For every occurrence of `flag` in a token list, the token right after it
(`none` when `flag` is the last token). -/
def followers (flag : String) : List String → List (Option String)
  | [] => []
  | t :: rest =>
    if t = flag then rest.head? :: followers flag rest else followers flag rest

/-- The segments of a path after its first character: for `/a/b` they are
`a` and `b`; a doubled or trailing `/` gives an empty segment. -/
def pathSegments (p : String) : List String :=
  jsSplit (String.mk (p.data.drop 1)) '/'

/-- Modelled from the spec: the number of bytes in one unit of a memory
ceiling, for the suffixes the size notation allows (K, M, G, binary
multiples). The reader of `max_memory_restart` is in the supervisor, not in
the repository. -/
def unitBytes : Char → Option Nat
  | 'K' => some 1024
  | 'M' => some (1024 * 1024)
  | 'G' => some (1024 * 1024 * 1024)
  | _ => none

/-- Modelled from the spec: the byte size denoted by a memory ceiling, a
positive decimal integer followed by one unit suffix. The reader of
`max_memory_restart` is in the supervisor, not in the repository. -/
def byteSize (s : String) : Option Nat :=
  match s.data.getLast? with
  | none => none
  | some u =>
    match unitBytes u, decimalValue (String.mk s.data.dropLast) with
    | some m, some n => if 0 < n then some (n * m) else none
    | _, _ => none

/-! ## The descriptor and its loader -/

/-- The errors of the loader. -/
inductive LoadError where
  | parseError
  | validationError (field : String)
  deriving DecidableEq, Repr

/-- Modelled from the spec: the ProcessDescriptor record of the data model,
which the repository does not declare. `name` and `command` are required,
`instanceCount` has a default, the other fields are optional and keep the
value of the document verbatim. -/
structure ProcessDescriptor where
  name : String
  command : String
  arguments : Option String
  workingDirectory : Option String
  environment : Option (List (String × String))
  watchEnabled : Option Bool
  instanceCount : Int
  executionMode : Option String
  autoRestart : Option Bool
  memoryCeiling : Option String
  deriving DecidableEq, Repr

/-- Modelled from the spec: a required string field of a record; the loader
reports a missing or ill-typed one under its descriptor name. -/
def requiredString (r : JsValue) (key fieldName : String) : Except LoadError String :=
  match r.field key with
  | some (.str s) => .ok s
  | _ => .error (.validationError fieldName)

/-- Modelled from the spec: an optional string field of a record. -/
def optionalString (r : JsValue) (key fieldName : String) :
    Except LoadError (Option String) :=
  match r.field key with
  | none => .ok none
  | some (.str s) => .ok (some s)
  | some _ => .error (.validationError fieldName)

/-- Modelled from the spec: an optional boolean field of a record. -/
def optionalBool (r : JsValue) (key fieldName : String) :
    Except LoadError (Option Bool) :=
  match r.field key with
  | none => .ok none
  | some (.bool b) => .ok (some b)
  | some _ => .error (.validationError fieldName)

/-- Modelled from the spec: the instance count of a record, the explicit
`instances` value when the field is present and 1 when it is absent. -/
def loadInstanceCount (r : JsValue) : Except LoadError Int :=
  match r.field "instances" with
  | none => .ok 1
  | some (.num n) => .ok n
  | some _ => .error (.validationError "instanceCount")

/-- The bindings of an `env` object; every value has to be a string. -/
def envBindings : List (String × JsValue) → Option (List (String × String))
  | [] => some []
  | (k, .str v) :: rest => (envBindings rest).map (fun env => (k, v) :: env)
  | _ :: _ => none

/-- Modelled from the spec: the environment of a record, the bindings of its
`env` object in source order. -/
def loadEnvironment (r : JsValue) : Except LoadError (Option (List (String × String))) :=
  match r.field "env" with
  | none => .ok none
  | some (.obj fields) =>
    match envBindings fields with
    | some env => .ok (some env)
    | none => .error (.validationError "environment")
  | some _ => .error (.validationError "environment")

/-- Modelled from the spec: the Descriptor Loader applied to one record of the
document. The loader is part of the supervisor, not of the repository. -/
def loadRecord (r : JsValue) : Except LoadError ProcessDescriptor := do
  let name ← requiredString r "name" "name"
  let command ← requiredString r "script" "command"
  let arguments ← optionalString r "args" "arguments"
  let workingDirectory ← optionalString r "cwd" "workingDirectory"
  let environment ← loadEnvironment r
  let watchEnabled ← optionalBool r "watch" "watchEnabled"
  let instanceCount ← loadInstanceCount r
  let executionMode ← optionalString r "exec_mode" "executionMode"
  let autoRestart ← optionalBool r "autorestart" "autoRestart"
  let memoryCeiling ← optionalString r "max_memory_restart" "memoryCeiling"
  pure { name, command, arguments, workingDirectory, environment, watchEnabled,
         instanceCount, executionMode, autoRestart, memoryCeiling }

/-- Modelled from the spec: the records of a document loaded in order; the
first record that fails validation fails the load. -/
def loadRecords : List JsValue → Except LoadError (List ProcessDescriptor)
  | [] => .ok []
  | r :: rest => do
    let d ← loadRecord r
    let ds ← loadRecords rest
    pure (d :: ds)

/-- Modelled from the spec: the Descriptor Loader. A document without an
`apps` array is malformed; a record with a missing or ill-typed field, or two
records of one name, fail validation. The loader is part of the supervisor,
not of the repository. -/
def loadDocument (doc : JsValue) : Except LoadError (List ProcessDescriptor) :=
  match doc.field "apps" with
  | some (.arr items) =>
    match loadRecords items with
    | .ok ds =>
      if (ds.map ProcessDescriptor.name).Nodup then .ok ds
      else .error (.validationError "name")
    | .error e => .error e
  | _ => .error .parseError

/-- A field of a serialized record that is written only when it is set. -/
def optionalField (key : String) : Option JsValue → List (String × JsValue)
  | some v => [(key, v)]
  | none => []

/-- Modelled from the spec: the serialization of a descriptor as a record of
the configuration document, with the field names and the field order of
`ecosystem.config.js`. The repository has no serializer. -/
def toRecord (d : ProcessDescriptor) : JsValue :=
  .obj ([("name", .str d.name), ("script", .str d.command)]
    ++ optionalField "args" (d.arguments.map .str)
    ++ optionalField "cwd" (d.workingDirectory.map .str)
    ++ optionalField "env"
        (d.environment.map fun env => .obj (env.map fun kv => (kv.1, .str kv.2)))
    ++ optionalField "watch" (d.watchEnabled.map .bool)
    ++ [("instances", .num d.instanceCount)]
    ++ optionalField "exec_mode" (d.executionMode.map .str)
    ++ optionalField "autorestart" (d.autoRestart.map .bool)
    ++ optionalField "max_memory_restart" (d.memoryCeiling.map .str))

/-- Modelled from the spec: the configuration document of a list of
descriptors, one top-level collection `apps`. The repository has no
serializer. -/
def toDocument (ds : List ProcessDescriptor) : JsValue :=
  .obj [("apps", .arr (ds.map toRecord))]

/-! ## Lemmas shared by the proofs -/

theorem exportedApps_eq : exportedApps = [firstApp] := rfl

theorem firstApp_mem : firstApp ∈ exportedApps := by
  rw [exportedApps_eq]
  exact List.mem_singleton_self _

theorem eq_firstApp_of_mem {r : JsValue} (h : r ∈ exportedApps) : r = firstApp := by
  rw [exportedApps_eq] at h
  exact List.mem_singleton.mp h

theorem envBindings_map_str (env : List (String × String)) :
    envBindings (env.map fun kv => (kv.1, JsValue.str kv.2)) = some env := by
  induction env with
  | nil => rfl
  | cons kv rest ih => simp [envBindings, ih]

theorem loadRecord_toRecord (d : ProcessDescriptor) : loadRecord (toRecord d) = .ok d := by
  obtain ⟨name, command, arguments, workingDirectory, environment, watchEnabled,
    instanceCount, executionMode, autoRestart, memoryCeiling⟩ := d
  cases arguments <;> cases workingDirectory <;> cases environment <;> cases watchEnabled <;>
    cases executionMode <;> cases autoRestart <;> cases memoryCeiling <;>
    simp [loadRecord, toRecord, optionalField, requiredString, optionalString, optionalBool,
      loadInstanceCount, loadEnvironment, JsValue.field, List.lookup, envBindings_map_str,
      bind, Except.bind, pure, Except.pure]

/-! ## The claims -/

/-- C1: the exported document has the single top-level collection `apps`, the
collection holds exactly one record, the record has the ten fields of the
source and no other, and loading the document yields exactly one descriptor
whose fields are the literal values of the source. -/
theorem exports_load_single_descriptor :
    moduleExports.keys = ["apps"] ∧
    exportedApps.length = 1 ∧
    firstApp.keys = ["name", "script", "args", "cwd", "env", "watch", "instances",
      "exec_mode", "autorestart", "max_memory_restart"] ∧
    loadDocument moduleExports = .ok [
      { name := "binance_alpha_be"
        command := "/home/ubuntu/binance_alpha_be/venv/bin/python"
        arguments := some "-m uvicorn main:app --host 0.0.0.0 --port 8001"
        workingDirectory := some "/home/ubuntu/binance_alpha_be"
        environment := some [("NODE_ENV", "production")]
        watchEnabled := some false
        instanceCount := 1
        executionMode := some "fork"
        autoRestart := some true
        memoryCeiling := some "500M" }] :=
  ⟨rfl, rfl, rfl, rfl⟩

/-- C2: every record of the exported `apps` collection has a `name` that is a
non-empty string, and no two records of the collection have the same name. -/
theorem app_names_nonempty_distinct (r : JsValue) (h : r ∈ exportedApps) :
    (∃ s, r.field "name" = some (.str s) ∧ s ≠ "") ∧
    (exportedApps.map (JsValue.field "name")).Nodup := by
  obtain rfl := eq_firstApp_of_mem h
  refine ⟨⟨"binance_alpha_be", rfl, by decide⟩, ?_⟩
  rw [exportedApps_eq]
  exact List.nodup_singleton _

/-- Witness of C2 at the shipped record. -/
theorem app_names_nonempty_distinct_witness :
    firstApp ∈ exportedApps ∧
    (∃ s, firstApp.field "name" = some (.str s) ∧ s ≠ "") ∧
    (exportedApps.map (JsValue.field "name")).Nodup :=
  ⟨firstApp_mem, app_names_nonempty_distinct firstApp firstApp_mem⟩

/-- C3: every record of the exported `apps` collection sets `instances` to 1,
and its instance count is that explicit value, a positive integer; for any
record the instance count is the explicit `instances` value when the field is
present and 1 when the field is absent. -/
theorem instance_count_positive (r : JsValue) (h : r ∈ exportedApps) :
    (∃ n : Int, r.field "instances" = some (.num n) ∧ loadInstanceCount r = .ok n ∧
      1 ≤ n ∧ n = 1) ∧
    (∀ (q : JsValue) (n : Int),
      q.field "instances" = some (.num n) → loadInstanceCount q = .ok n) ∧
    (∀ q : JsValue, q.field "instances" = none → loadInstanceCount q = .ok 1) := by
  obtain rfl := eq_firstApp_of_mem h
  refine ⟨⟨1, rfl, rfl, le_refl _, rfl⟩, ?_, ?_⟩
  · intro q n hq
    simp [loadInstanceCount, hq]
  · intro q hq
    simp [loadInstanceCount, hq]

/-- Witness of C3 at the shipped record, whose `instances` is 1, and at the
empty record, which has no `instances` and gets the default. -/
theorem instance_count_positive_witness :
    firstApp ∈ exportedApps ∧
    (∃ n : Int, firstApp.field "instances" = some (.num n) ∧
      loadInstanceCount firstApp = .ok n ∧ 1 ≤ n ∧ n = 1) ∧
    loadInstanceCount firstApp = .ok 1 ∧
    (JsValue.obj []).field "instances" = none ∧
    loadInstanceCount (.obj []) = .ok 1 :=
  ⟨firstApp_mem, (instance_count_positive firstApp firstApp_mem).1,
    (instance_count_positive firstApp firstApp_mem).2.1 firstApp 1 rfl,
    rfl, (instance_count_positive firstApp firstApp_mem).2.2 (.obj []) rfl⟩

/-- C4: every record of the exported `apps` collection that sets
`max_memory_restart` sets it to a string made of a positive decimal integer
and a unit suffix, which denotes a strictly positive byte size; for the
shipped value `500M` the size is 500 * 1024 * 1024 bytes. -/
theorem memory_ceiling_positive (r v : JsValue) (h : r ∈ exportedApps)
    (hv : r.field "max_memory_restart" = some v) :
    ∃ s n, v = .str s ∧ s = "500M" ∧ byteSize s = some n ∧ 0 < n ∧
      n = 500 * 1024 * 1024 := by
  obtain rfl := eq_firstApp_of_mem h
  have hfield : firstApp.field "max_memory_restart" = some (.str "500M") := rfl
  rw [hfield] at hv
  obtain rfl := Option.some.inj hv
  exact ⟨"500M", 500 * 1024 * 1024, rfl, rfl, by decide, by decide, rfl⟩

/-- Witness of C4 at the shipped record and its ceiling `500M`. -/
theorem memory_ceiling_positive_witness :
    firstApp ∈ exportedApps ∧
    firstApp.field "max_memory_restart" = some (.str "500M") ∧
    ∃ s n, JsValue.str "500M" = .str s ∧ s = "500M" ∧ byteSize s = some n ∧ 0 < n ∧
      n = 500 * 1024 * 1024 :=
  ⟨firstApp_mem, rfl, memory_ceiling_positive firstApp (.str "500M") firstApp_mem rfl⟩

/-- C5 as stated fails: `args` of the shipped record is not an array of
strings (it is one string), so not every record of the exported collection
has a sequence of strings as its arguments field. -/
theorem args_not_string_sequence :
    ¬ ∀ r ∈ exportedApps, ∃ xs : List String,
      (r.field "args").bind JsValue.asStringList = some xs := by
  intro hall
  obtain ⟨xs, hxs⟩ := hall firstApp firstApp_mem
  have hnone : (firstApp.field "args").bind JsValue.asStringList = none := rfl
  rw [hnone] at hxs
  exact Option.noConfusion hxs

/-- C5, amended: the arguments field of every record of the exported `apps`
collection is one string, and splitting it on single spaces gives the ordered
sequence of the arguments, one element per argument. -/
theorem args_single_string_tokens (r : JsValue) (h : r ∈ exportedApps) :
    ∃ s, r.field "args" = some (.str s) ∧
      jsSplit s ' ' = ["-m", "uvicorn", "main:app", "--host", "0.0.0.0", "--port", "8001"] := by
  obtain rfl := eq_firstApp_of_mem h
  exact ⟨"-m uvicorn main:app --host 0.0.0.0 --port 8001", rfl, by decide⟩

/-- Witness of the amended C5 at the shipped record. -/
theorem args_single_string_tokens_witness :
    firstApp ∈ exportedApps ∧
    ∃ s, firstApp.field "args" = some (.str s) ∧
      jsSplit s ' ' = ["-m", "uvicorn", "main:app", "--host", "0.0.0.0", "--port", "8001"] :=
  ⟨firstApp_mem, args_single_string_tokens firstApp firstApp_mem⟩

/-- C6: the working directory of every record of the exported `apps`
collection is an absolute path: a non-empty string that starts with `/` and
whose segments after that `/` are none of the empty string, `.` and `..`. -/
theorem cwd_absolute (r : JsValue) (h : r ∈ exportedApps) :
    ∃ p, r.field "cwd" = some (.str p) ∧ p ≠ "" ∧ p.data.head? = some '/' ∧
      ∀ seg ∈ pathSegments p, seg ≠ "" ∧ seg ≠ "." ∧ seg ≠ ".." := by
  obtain rfl := eq_firstApp_of_mem h
  exact ⟨"/home/ubuntu/binance_alpha_be", rfl, by decide, by decide, by decide⟩

/-- Witness of C6 at the shipped record. -/
theorem cwd_absolute_witness :
    firstApp ∈ exportedApps ∧
    ∃ p, firstApp.field "cwd" = some (.str p) ∧ p ≠ "" ∧ p.data.head? = some '/' ∧
      ∀ seg ∈ pathSegments p, seg ≠ "" ∧ seg ≠ "." ∧ seg ≠ ".." :=
  ⟨firstApp_mem, cwd_absolute firstApp firstApp_mem⟩

/-- C7: serializing any descriptor to a configuration document and loading
that document gives back the descriptor, equal in every field; the shipped
document is the serialization of the descriptor it loads to. -/
theorem serialize_load_roundtrip :
    (∀ d : ProcessDescriptor, loadDocument (toDocument [d]) = .ok [d]) ∧
    ∃ d : ProcessDescriptor,
      loadDocument moduleExports = .ok [d] ∧ toDocument [d] = moduleExports := by
  refine ⟨?_, ?_⟩
  · intro d
    simp [loadDocument, toDocument, JsValue.field, List.lookup, loadRecords,
      loadRecord_toRecord, bind, Except.bind, pure, Except.pure]
  · exact ⟨_, rfl, rfl⟩

/-- C8: the executable path of every record of the exported `apps` collection
lies strictly inside the working directory of the record: the working
directory followed by `/` is a proper prefix of `script`. -/
theorem script_inside_cwd (r : JsValue) (h : r ∈ exportedApps) :
    ∃ script cwd, r.field "script" = some (.str script) ∧ r.field "cwd" = some (.str cwd) ∧
      (cwd.data ++ ['/']) <+: script.data ∧
      (cwd.data ++ ['/']).length < script.data.length := by
  obtain rfl := eq_firstApp_of_mem h
  exact ⟨"/home/ubuntu/binance_alpha_be/venv/bin/python", "/home/ubuntu/binance_alpha_be",
    rfl, rfl, by decide, by decide⟩

/-- Witness of C8 at the shipped record. -/
theorem script_inside_cwd_witness :
    firstApp ∈ exportedApps ∧
    ∃ script cwd, firstApp.field "script" = some (.str script) ∧
      firstApp.field "cwd" = some (.str cwd) ∧
      (cwd.data ++ ['/']) <+: script.data ∧
      (cwd.data ++ ['/']).length < script.data.length :=
  ⟨firstApp_mem, script_inside_cwd firstApp firstApp_mem⟩

/-- C9: splitting the `args` string of the shipped record on single spaces
gives exactly seven tokens, none empty; `--host` occurs once and the token
right after it, `0.0.0.0`, is a dotted quad of four decimal octets in
`0..255`; `--port` occurs once and the token right after it, `8001`, is a
decimal integer in the port range `1..65535`. -/
theorem args_host_port_well_formed :
    ∃ s, firstApp.field "args" = some (.str s) ∧
      (jsSplit s ' ').length = 7 ∧
      (∀ t ∈ jsSplit s ' ', t ≠ "") ∧
      followers "--host" (jsSplit s ' ') = [some "0.0.0.0"] ∧
      isDottedQuad "0.0.0.0" = true ∧
      followers "--port" (jsSplit s ' ') = [some "8001"] ∧
      isPort "8001" = true ∧
      decimalValue "8001" = some 8001 :=
  ⟨"-m uvicorn main:app --host 0.0.0.0 --port 8001", rfl, by decide, by decide, by decide,
    by decide, by decide, by decide, by decide⟩
